import Mathlib

/-!
MaKin-Backend: route loader, model registration, OAuth endpoints, error middleware.

A shallow embedding of `src/app.js` and `src/db-helpers/sequelize/models-setup.js`.

* JavaScript strings are Lean strings; the string functions work on the character list.
* The file system and the module loader are inputs: a directory listing that may fail and,
  per filename, a dynamic import that may fail.
* Library functions (`querystring.stringify`, `axios.post`, `createError`) are parameters;
  `app.use` accepts a middleware function and throws a `TypeError` for anything else.
* Asynchronous code is run against a logical clock: an awaited operation advances the clock by
  its duration, an operation that is started and not awaited does not.
-/

set_option autoImplicit false

namespace MaKin

/-! ## Strings -/

/-- The method `String.prototype.split(sep)` for a one-character separator, on character lists.
The result is never empty: a string without the separator gives one segment. -/
def splitChars (sep : Char) : List Char → List (List Char)
  | [] => [[]]
  | c :: cs =>
    if c = sep then [] :: splitChars sep cs
    else
      match splitChars sep cs with
      | [] => [[c]]
      | s :: ss => (c :: s) :: ss

/-- The call `s.split(sep)` on strings. -/
def split (s : String) (sep : Char) : List String :=
  (splitChars sep s.data).map String.mk

/-- The element `xs[0]` of an array of strings that is known to be non-empty (`""` stands for the
`undefined` of an empty array, which `split` never returns). -/
def first (xs : List String) : String :=
  xs.headD ""

/-- The constant `const apiPath = '/api'` (app.js line 120). -/
def apiPath : String := "/api"

/-- The constant `const slug = filename.split('.')[0]` (app.js line 129). -/
def slug (filename : String) : String :=
  first (split filename '.')

/-- The first argument of `app.use` in the loop: the template literal
`${apiPath}/${slug === 'index' ? '' : slug}` (app.js line 130). -/
def mountPath (filename : String) : String :=
  apiPath ++ "/" ++ (if slug filename = "index" then "" else slug filename)

/-- Character-list form of `stripExtension`. -/
def stripExtensionChars : List Char → List Char
  | [] => []
  | c :: cs =>
    if '.' ∈ cs then c :: stripExtensionChars cs
    else if c = '.' then [] else c :: cs

/-- The specification's `stripExtension`, written from the specification's words and not from
the source: the name with its extension removed, that is the last `.` and everything after it;
a name without a dot is unchanged. -/
def stripExtension (filename : String) : String :=
  String.mk (stripExtensionChars filename.data)

/-- Number of dots in a filename. -/
def dotCount (filename : String) : Nat :=
  filename.data.count '.'

/-! ## Thrown values -/

/-- The value caught by a `catch` clause: an error raised by an awaited operation, or the
`TypeError` raised by the runtime or by the router. -/
inductive Thrown (ε : Type) where
  | raised (e : ε)
  | typeError

/-! ## Route loader (app.js lines 123-135) -/

/-- A dynamically imported route file. Its `default` export is `some handler` when it is a
middleware function (a router is one), which `app.use` accepts, and `none` when the file has
no default export or exports something that is not a function, for which `app.use` throws a
`TypeError`. -/
structure RouteModule (H : Type) where
  default : Option H

/-- What the loader sees of the outside world: the result of
`fs.promises.readdir(routePath)` and of `import(...)` for each filename. -/
structure RouteWorld (ε H : Type) where
  readdir : Except ε (List String)
  importModule : String → Except ε (RouteModule H)

/-- The place where the `try` block was left by a throw: the listing, the import of the file
at a position of the listing, or the `app.use` call for the file at a position. -/
inductive RouteStop (ε : Type) where
  | listingFailed (e : ε)
  | importFailed (index : Nat) (e : ε)
  | useThrew (index : Nat)

/-- The value that the `catch` clause receives for a stop. -/
def RouteStop.thrown {ε : Type} : RouteStop ε → Thrown ε
  | .listingFailed e => .raised e
  | .importFailed _ e => .raised e
  | .useThrew _ => .typeError

/-- The observable effect of running the loader: the `app.use(path, handler)` calls that
went through, in the order they were made, where the `try` block was left if it was, the
errors written by `console.error`, and how the promise of the immediately invoked async
function settles (`.ok ()` fulfilled, `.error e` rejected). -/
structure RouteLoad (ε H : Type) where
  mounts : List (String × H)
  stopped : Option (RouteStop ε)
  logged : List (Thrown ε)
  outcome : Except (Thrown ε) Unit

/-- The `for (const filename of filenames)` loop inside the `try` block, from the file at
position `i`, which it is about to import, onwards. It returns the `app.use` calls that went
through, in order, and where the loop was left when the import or `app.use` threw (the files
after that one are then never reached). -/
def routeLoop {ε H : Type} (importModule : String → Except ε (RouteModule H)) :
    List String → Nat → List (String × H) × Option (RouteStop ε)
  | [], _ => ([], none)
  | filename :: rest, i =>
    match importModule filename with
    | .error e => ([], some (.importFailed i e))
    | .ok item =>
      match item.default with
      | none => ([], some (.useThrew i))
      | some handler =>
        let later := routeLoop importModule rest (i + 1)
        ((mountPath filename, handler) :: later.1, later.2)

/-- The immediately invoked async function of app.js lines 123-135: `try` the listing and
the loop, `catch` every error and log it. -/
def loadRoutes {ε H : Type} (w : RouteWorld ε H) : RouteLoad ε H :=
  match w.readdir with
  | .error e =>
    { mounts := [], stopped := some (.listingFailed e), logged := [.raised e], outcome := .ok () }
  | .ok filenames =>
    match routeLoop w.importModule filenames 0 with
    | (ms, none) => { mounts := ms, stopped := none, logged := [], outcome := .ok () }
    | (ms, some stop) =>
      { mounts := ms, stopped := some stop, logged := [stop.thrown], outcome := .ok () }

/-- The `app.use` call that goes through for a file: its mount path and its default export,
when the import succeeds and the default export is a middleware function. -/
def mountOf {ε H : Type} (importModule : String → Except ε (RouteModule H))
    (filename : String) : Option (String × H) :=
  match importModule filename with
  | .ok item =>
    match item.default with
    | some handler => some (mountPath filename, handler)
    | none => none
  | .error _ => none

/-- A routes directory holding `foo.js` and `foo.mjs`, both importable. -/
def fooWorld : RouteWorld String String where
  readdir := .ok ["foo.js", "foo.mjs"]
  importModule := fun f => .ok { default := some ("router of " ++ f) }

/-- A routes directory of three files in which the import of the second one throws. -/
def brokenWorld : RouteWorld String String where
  readdir := .ok ["users.js", "songs.js", "index.js"]
  importModule := fun f =>
    if f = "songs.js" then .error "SyntaxError in songs.js"
    else .ok { default := some ("router of " ++ f) }

/-- A routes directory of three files that all import, the second of which has no default
export. -/
def noDefaultWorld : RouteWorld String String where
  readdir := .ok ["a.js", "b.js", "c.js"]
  importModule := fun f =>
    if f = "b.js" then .ok { default := none } else .ok { default := some ("router of " ++ f) }

/-! ## Model registration (models-setup.js lines 8-17) -/

/-- What a registration function hands back to its caller: a plain value, or a promise that
settles `settlesAfter` ticks after the call (an `async function` with no pending work gives
`promise 0`). -/
inductive RegReturn where
  | value
  | promise (settlesAfter : Nat)
  deriving DecidableEq, Repr

/-- A dynamically imported model file: its `default` export is called with the connection
and either throws or returns. -/
structure ModelModule (ε Conn : Type) where
  default : Conn → Except ε RegReturn

/-- The outside world of `applyModels`: the directory listing, the import of each file, and
how many ticks of the logical clock each awaited operation takes. -/
structure ModelWorld (ε Conn : Type) where
  readdir : Except ε (List String)
  readdirTicks : Nat
  importModule : String → Except ε (ModelModule ε Conn)
  importTicks : String → Nat

/-- One execution of line 15, `item.default(sequelize)`: the file, the time its import
started, the time of the call, the argument passed and what the call produced. -/
structure Registration (ε Conn : Type) where
  filename : String
  importStart : Nat
  calledAt : Nat
  arg : Conn
  returned : Except ε RegReturn

/-- The time at which a registration is complete: the time of the call for a function that
returns a plain value (or throws), the settling time of the promise otherwise. -/
def Registration.settleTime {ε Conn : Type} (r : Registration ε Conn) : Nat :=
  match r.returned with
  | .ok (.promise d) => r.calledAt + d
  | _ => r.calledAt

/-- The observable run of `applyModels`: the registration calls in order, how the promise
returned by `applyModels` settles, and when. -/
structure ModelRun (ε Conn : Type) where
  registrations : List (Registration ε Conn)
  outcome : Except ε Unit
  finishedAt : Nat

/-- The `for` loop of lines 13-16 from the file it is about to import, at clock time `t`.
`await import(...)` advances the clock by the import's duration; the result of
`item.default(sequelize)` is dropped, so the clock does not move after the call. -/
def applyLoop {ε Conn : Type} (w : ModelWorld ε Conn) (sequelize : Conn) :
    List String → Nat → ModelRun ε Conn
  | [], t => { registrations := [], outcome := .ok (), finishedAt := t }
  | filename :: rest, t =>
    match w.importModule filename with
    | .error e =>
      { registrations := [], outcome := .error e, finishedAt := t + w.importTicks filename }
    | .ok item =>
      let called := t + w.importTicks filename
      let reg : Registration ε Conn :=
        { filename := filename, importStart := t, calledAt := called, arg := sequelize,
          returned := item.default sequelize }
      match item.default sequelize with
      | .error e => { registrations := [reg], outcome := .error e, finishedAt := called }
      | .ok _ =>
        let later := applyLoop w sequelize rest called
        { registrations := reg :: later.registrations, outcome := later.outcome,
          finishedAt := later.finishedAt }

/-- The async function `applyModels(sequelize)`, started at clock time 0. There is no
`try`: an error of the listing, of an import or of a registration call rejects its promise. -/
def applyModels {ε Conn : Type} (w : ModelWorld ε Conn) (sequelize : Conn) : ModelRun ε Conn :=
  match w.readdir with
  | .error e => { registrations := [], outcome := .error e, finishedAt := w.readdirTicks }
  | .ok filenames => applyLoop w sequelize filenames w.readdirTicks

/-- The property of the specification for one run: every registration is complete before the
next file's import starts, and before `applyModels` completes. -/
def AwaitsRegistrations {ε Conn : Type} (run : ModelRun ε Conn) : Prop :=
  List.Chain' (fun a b => a.settleTime ≤ b.importStart) run.registrations ∧
    ∀ r ∈ run.registrations, r.settleTime ≤ run.finishedAt

/-- A models directory with two files whose registration functions are `async` and take
five ticks to finish; listing and imports take one tick each. -/
def asyncWorld : ModelWorld String Unit where
  readdir := .ok ["user.js", "song.js"]
  readdirTicks := 1
  importModule := fun _ => .ok { default := fun _ => .ok (.promise 5) }
  importTicks := fun _ => 1

/-- A models directory with two files whose registration functions return plain values. -/
def syncWorld : ModelWorld String Nat where
  readdir := .ok ["user.js", "song.js"]
  readdirTicks := 1
  importModule := fun _ => .ok { default := fun _ => .ok .value }
  importTicks := fun _ => 2

/-! ## JavaScript values -/

/-- The JavaScript values the handlers read: `undefined`, `null`, booleans, integer-valued
numbers in the safe range (magnitude at most 2^53, where every integer is a number and prints
as its decimal digits), strings and plain objects (own properties in insertion order).
Arrays, functions and the other numbers are left out. -/
inductive JsVal where
  | undefined
  | null
  | bool (b : Bool)
  | num (n : Int) (safe : n.natAbs ≤ 9007199254740992)
  | str (s : String)
  | obj (props : List (String × JsVal))

/-- Truthiness, as tested by `||` and `?:`. -/
def JsVal.truthy : JsVal → Bool
  | .undefined => false
  | .null => false
  | .bool b => b
  | .num n _ => n != 0
  | .str s => s != ""
  | .obj _ => true

/-- The operator `a || b`. -/
def JsVal.or (a b : JsVal) : JsVal :=
  if a.truthy then a else b

/-- Reading an own property of a plain object: the value stored under the key, `undefined`
when the key is absent. -/
def lookupProp (props : List (String × JsVal)) (key : String) : JsVal :=
  match props.lookup key with
  | some v => v
  | none => .undefined

/-- Member access `v.key` for the keys read by this program (`code`, `access_token`,
`refresh_token`, `message`, `status`): a `TypeError` (`none`) on `undefined` and `null`,
`undefined` on the other primitives, the stored property on an object. -/
def JsVal.get (v : JsVal) (key : String) : Option JsVal :=
  match v with
  | .undefined => none
  | .null => none
  | .obj props => some (lookupProp props key)
  | _ => some .undefined

/-- String conversion of a value substituted into a template literal. -/
def JsVal.toStr : JsVal → String
  | .undefined => "undefined"
  | .null => "null"
  | .bool true => "true"
  | .bool false => "false"
  | .num n _ => toString n
  | .str s => s
  | .obj _ => "[object Object]"

/-! ## OAuth endpoints (app.js lines 18-20 and 76-117) -/

/-- The two values read from `process.env` at start-up (lines 18-19); a variable that is not
set reads as `undefined`. -/
structure Config where
  spotify_client_id : JsVal
  spotify_client_secret : JsVal

/-- The constant `const redirect_uri` (line 20). -/
def redirect_uri : String := "https://makin-backend.vercel.app/callback"

/-- An incoming request: parsed query string, headers, session and the `env` setting of the
application it belongs to. -/
structure Request where
  query : List (String × JsVal)
  headers : List (String × String)
  session : JsVal
  appEnv : String

/-- A call made on the response object by the OAuth handlers. -/
inductive ResCall (ε : Type) where
  | redirect (url : String)
  | send (body : Thrown ε)

/-- The constant `const scope` of the `/login` handler (lines 77-78). -/
def scope : String :=
  "streaming user-read-email user-read-private ugc-image-upload user-read-playback-state user-modify-playback-state user-read-currently-playing app-remote-control playlist-read-private playlist-read-collaborative playlist-modify-private playlist-modify-public user-follow-modify user-follow-read user-read-playback-position user-top-read user-read-recently-played user-library-modify user-library-read"

/-- The object literal passed to `querystring.stringify` in `/login`, keys in source order. -/
def loginParams (cfg : Config) : List (String × JsVal) :=
  [("response_type", .str "code"), ("client_id", cfg.spotify_client_id),
   ("scope", .str scope), ("redirect_uri", .str redirect_uri)]

/-- The constant `const authUrl` (lines 80-87). `stringify` stands for the library function
`querystring.stringify`. -/
def authUrl (stringify : List (String × JsVal) → String) (cfg : Config) : String :=
  "https://accounts.spotify.com/authorize?" ++ stringify (loginParams cfg)

/-- The handler of `GET /login` (lines 76-89): the calls it makes on `res`. -/
def loginHandler {ε : Type} (stringify : List (String × JsVal) → String) (cfg : Config)
    (_req : Request) : List (ResCall ε) :=
  [.redirect (authUrl stringify cfg)]

/-- The response object of `axios.post`; only `data` is read. -/
structure AxiosResponse where
  data : JsVal

/-- The object literal passed to `querystring.stringify` in `/callback` (lines 96-102). -/
def tokenParams (cfg : Config) (code : JsVal) : List (String × JsVal) :=
  [("grant_type", .str "authorization_code"), ("code", code),
   ("redirect_uri", .str redirect_uri), ("client_id", cfg.spotify_client_id),
   ("client_secret", cfg.spotify_client_secret)]

/-- The destructuring `const { access_token, refresh_token } = response.data` (line 110):
a `TypeError` (`none`) when `data` is `undefined` or `null`. -/
def destructureTokens (data : JsVal) : Option (JsVal × JsVal) :=
  match data.get "access_token", data.get "refresh_token" with
  | some a, some r => some (a, r)
  | _, _ => none

/-- The template literal of line 112. -/
def callbackUrl (access_token refresh_token : JsVal) : String :=
  "https://makin-sound.vercel.app/auth/callback#access_token=" ++ access_token.toStr ++
    "&refresh_token=" ++ refresh_token.toStr

/-- The awaited `axios.post` of lines 92-108, with the arguments the handler gives it: the
token endpoint, the form-encoded body built from `req.query.code || null`, and the
content-type header. `post` stands for the library function, which either throws or gives a
response; `stringify` for `querystring.stringify`. -/
def tokenExchange {ε : Type} (stringify : List (String × JsVal) → String)
    (post : String → String → List (String × String) → Except ε AxiosResponse)
    (cfg : Config) (req : Request) : Except ε AxiosResponse :=
  let code := (lookupProp req.query "code").or .null
  post "https://accounts.spotify.com/api/token" (stringify (tokenParams cfg code))
    [("Content-Type", "application/x-www-form-urlencoded")]

/-- The handler of `GET /callback` (lines 91-117): the calls it makes on `res`. -/
def callbackHandler {ε : Type} (stringify : List (String × JsVal) → String)
    (post : String → String → List (String × String) → Except ε AxiosResponse)
    (cfg : Config) (req : Request) : List (ResCall ε) :=
  match tokenExchange stringify post cfg req with
  | .error error => [.send (.raised error)]
  | .ok response =>
    match destructureTokens response.data with
    | none => [.send .typeError]
    | some (access_token, refresh_token) => [.redirect (callbackUrl access_token refresh_token)]

/-- The redirects among the calls made on `res`. -/
def redirects {ε : Type} : List (ResCall ε) → List String
  | [] => []
  | .redirect url :: rest => url :: redirects rest
  | .send _ :: rest => redirects rest

/-! ## Not-found and error middleware (app.js lines 137-149) -/

/-- The response object as the last two middlewares use it: `res.locals.message`,
`res.locals.error`, the status code, and the response that was sent (status and body). -/
structure Res where
  localsMessage : JsVal
  localsError : JsVal
  statusCode : JsVal
  sent : Option (JsVal × JsVal)

/-- The call `res.status(code)`: stores the code (the setter of Express 4, which checks nothing). -/
def Res.status (res : Res) (code : JsVal) : Res :=
  { res with statusCode := code }

/-- The call `res.send(body)`: sends the body under the status code stored at that moment. -/
def Res.send (res : Res) (body : JsVal) : Res :=
  { res with sent := some (res.statusCode, body) }

/-- The error middleware (lines 143-149). `none` is the `TypeError` of reading a property
of `undefined` or `null`. -/
def errorHandler (err : JsVal) (req : Request) (res : Res) : Option Res :=
  match err.get "message", err.get "status" with
  | some message, some status =>
    let res1 := { res with localsMessage := message }
    let res2 := { res1 with localsError := if req.appEnv = "development" then err else .obj [] }
    let res3 := res2.status (status.or (.num 500 (by decide)))
    some ((res3.status (.num 500 (by decide))).send (.obj [("error", err)]))
  | _, _ => none

/-- The not-found middleware (lines 138-140): the argument it gives to `next`.
`createError` stands for the library function of `http-errors`, which returns an error
object; its own properties are the list. -/
def notFound (createError : Int → List (String × JsVal)) (_req : Request) (_res : Res) : JsVal :=
  .obj (createError 404)

/-- A request that reaches the not-found middleware: the error it hands to `next` goes to the
error middleware, the only one registered after it. -/
def handleUnmatched (createError : Int → List (String × JsVal)) (req : Request) (res : Res) :
    Option Res :=
  errorHandler (notFound createError req res) req res

/-- A request with nothing in it. -/
def emptyRequest : Request :=
  { query := [], headers := [], session := .undefined, appEnv := "development" }

/-- A response on which nothing has been called yet. -/
def freshRes : Res :=
  { localsMessage := .undefined, localsError := .undefined, statusCode := .num 200 (by decide),
    sent := none }

/-- A token endpoint that answers every request with the token pair `A`, `B`. -/
def tokenStub : String → String → List (String × String) → Except String AxiosResponse :=
  fun _ _ _ => .ok { data := .obj [("access_token", .str "A"), ("refresh_token", .str "B")] }

/-- A token endpoint whose every request fails. -/
def failingStub : String → String → List (String × String) → Except String AxiosResponse :=
  fun _ _ _ => .error "Request failed with status code 400"

/-- A stand-in for `querystring.stringify` used in examples: keys joined by `&`. -/
def keysOnly (params : List (String × JsVal)) : String :=
  "&".intercalate (params.map Prod.fst)

/-- The own properties of an error object as `http-errors` makes it for status 404. -/
def notFoundProps : List (String × JsVal) :=
  [("message", .str "Not Found"), ("status", .num 404 (by decide))]

/-- An error object with status 404. -/
def notFoundError : JsVal :=
  .obj notFoundProps

/-- A configuration with both variables set. -/
def demoConfig : Config :=
  { spotify_client_id := .str "client", spotify_client_secret := .str "secret" }

/-! ## Lemmas on strings -/

theorem splitChars_ne_nil (sep : Char) (cs : List Char) : splitChars sep cs ≠ [] := by
  cases cs with
  | nil => simp [splitChars]
  | cons c cs =>
    unfold splitChars
    split
    · simp
    · split <;> simp

theorem headD_splitChars_cons (sep c : Char) (cs : List Char) :
    (splitChars sep (c :: cs)).headD [] =
      if c = sep then [] else c :: (splitChars sep cs).headD [] := by
  by_cases h : c = sep
  · simp [splitChars, h]
  · have hne := splitChars_ne_nil sep cs
    simp only [splitChars, h, if_false]
    cases hs : splitChars sep cs with
    | nil => exact absurd hs hne
    | cons s ss => simp

theorem headD_splitChars_of_not_mem (sep : Char) (cs : List Char) (h : sep ∉ cs) :
    (splitChars sep cs).headD [] = cs := by
  induction cs with
  | nil => simp [splitChars]
  | cons c cs ih =>
    have hc : c ≠ sep := fun e => h (by simp [e])
    have hcs : sep ∉ cs := fun e => h (by simp [e])
    rw [headD_splitChars_cons, if_neg hc, ih hcs]

theorem slug_eq (filename : String) :
    slug filename = String.mk ((splitChars '.' filename.data).headD []) := by
  unfold slug first split
  cases hs : splitChars '.' filename.data with
  | nil => exact absurd hs (splitChars_ne_nil _ _)
  | cons s ss => simp

theorem headD_splitChars_eq_stripExtensionChars (cs : List Char) (h : cs.count '.' ≤ 1) :
    (splitChars '.' cs).headD [] = stripExtensionChars cs := by
  induction cs with
  | nil => simp [splitChars, stripExtensionChars]
  | cons c cs ih =>
    rw [headD_splitChars_cons]
    unfold stripExtensionChars
    by_cases hm : '.' ∈ cs
    · have hpos : 0 < cs.count '.' := List.count_pos_iff.mpr hm
      have hc : c ≠ '.' := by
        intro e
        subst e
        simp at h
        omega
      have hcnt : cs.count '.' ≤ 1 := by
        rw [List.count_cons_of_ne (Ne.symm hc)] at h
        exact h
      rw [if_neg hc, if_pos hm, ih hcnt]
    · by_cases hc : c = '.'
      · rw [if_pos hc, if_neg hm, if_pos hc]
      · rw [if_neg hc, if_neg hm, if_neg hc, headD_splitChars_of_not_mem '.' cs hm]

theorem headD_splitChars_of_stripExtensionChars (cs s : List Char)
    (hs : stripExtensionChars cs = s) (hdot : '.' ∉ s) :
    (splitChars '.' cs).headD [] = s := by
  induction cs generalizing s with
  | nil => simpa [splitChars, stripExtensionChars] using hs
  | cons c cs ih =>
    rw [headD_splitChars_cons]
    unfold stripExtensionChars at hs
    by_cases hm : '.' ∈ cs
    · rw [if_pos hm] at hs
      subst hs
      have hc : c ≠ '.' := fun e => hdot (by simp [e])
      have hrest : '.' ∉ stripExtensionChars cs := fun e => hdot (by simp [e])
      rw [if_neg hc, ih _ rfl hrest]
    · rw [if_neg hm] at hs
      by_cases hc : c = '.'
      · simpa [hc] using hs
      · rw [if_neg hc] at hs
        rw [if_neg hc, headD_splitChars_of_not_mem '.' cs hm]
        exact hs

theorem slug_eq_stripExtension (filename : String) (h : dotCount filename ≤ 1) :
    slug filename = stripExtension filename := by
  rw [slug_eq, stripExtension, headD_splitChars_eq_stripExtensionChars _ h]

theorem slug_eq_index_of_stripExtension (filename : String)
    (h : stripExtension filename = "index") : slug filename = "index" := by
  rw [slug_eq]
  have h1 : stripExtensionChars filename.data = "index".data := by
    have := congrArg String.data h
    simpa [stripExtension] using this
  rw [headD_splitChars_of_stripExtensionChars _ _ h1 (by decide)]

/-! ## Mount paths -/

/-- C1, as stated, fails: `user.profile.js` is not an index file once its extension `.js` is
removed, yet the loader mounts it at `/api/user`, not at `/api/user.profile`. -/
theorem mountPath_multi_dot_counterexample :
    stripExtension "user.profile.js" = "user.profile" ∧
      stripExtension "user.profile.js" ≠ "index" ∧
      mountPath "user.profile.js" = "/api/user" ∧
      mountPath "user.profile.js" ≠ "/api" ++ "/" ++ stripExtension "user.profile.js" := by
  decide

/-- C1, amended: for every filename whose part before the first dot (`slug`) is not `index`,
the path given to `app.use` is `/api` + `/` + that part; when the filename has at most one dot
that part is the name with its extension removed, so the path is
`/api` + `/` + `stripExtension filename`. -/
theorem mountPath_of_slug_ne_index (filename : String) (h : slug filename ≠ "index") :
    mountPath filename = "/api" ++ "/" ++ slug filename ∧
      (dotCount filename ≤ 1 →
        mountPath filename = "/api" ++ "/" ++ stripExtension filename) := by
  have h1 : mountPath filename = "/api" ++ "/" ++ slug filename := by
    simp [mountPath, apiPath, h]
  refine ⟨h1, fun hd => ?_⟩
  rw [h1, slug_eq_stripExtension filename hd]

theorem mountPath_of_slug_ne_index_witness :
    slug "users.js" ≠ "index" ∧
      (mountPath "users.js" = "/api" ++ "/" ++ slug "users.js" ∧
        (dotCount "users.js" ≤ 1 →
          mountPath "users.js" = "/api" ++ "/" ++ stripExtension "users.js")) :=
  ⟨by decide, mountPath_of_slug_ne_index "users.js" (by decide)⟩

/-- C2, as stated, fails: for `index.js` the slug is `index` and the path given to `app.use`
is `/api/`, which ends in a slash and is not `/api`. -/
theorem mountPath_index_counterexample :
    slug "index.js" = "index" ∧ mountPath "index.js" = "/api/" ∧ mountPath "index.js" ≠ "/api" := by
  decide

/-- C2, amended: for every filename whose slug is `index`, be it the part before the first dot
or the name with its extension removed, the path given to `app.use` is the base path followed
by one slash, `/api/`. -/
theorem mountPath_of_index (filename : String)
    (h : slug filename = "index" ∨ stripExtension filename = "index") :
    mountPath filename = apiPath ++ "/" ∧ mountPath filename = "/api/" := by
  have hs : slug filename = "index" := by
    rcases h with h | h
    · exact h
    · exact slug_eq_index_of_stripExtension filename h
  constructor
  · simp [mountPath, hs]
  · simp [mountPath, hs, apiPath]

theorem mountPath_of_index_witness :
    (slug "index.js" = "index" ∨ stripExtension "index.js" = "index") ∧
      (mountPath "index.js" = apiPath ++ "/" ∧ mountPath "index.js" = "/api/") :=
  ⟨Or.inl (by decide), mountPath_of_index "index.js" (Or.inl (by decide))⟩

/-! ## Route loader -/

theorem mountPath_eq_of_slug_eq (f g : String) (h : slug f = slug g) :
    mountPath f = mountPath g := by
  unfold mountPath
  rw [h]

theorem routeLoop_all_ok {ε H : Type} (importModule : String → Except ε (RouteModule H))
    (handlers : String → H) (filenames : List String) (i : Nat)
    (h : ∀ f ∈ filenames, importModule f = .ok (RouteModule.mk (some (handlers f)))) :
    routeLoop importModule filenames i =
      (filenames.map (fun f => (mountPath f, handlers f)), none) := by
  induction filenames generalizing i with
  | nil => rfl
  | cons f rest ih =>
    have hf : importModule f = .ok (RouteModule.mk (some (handlers f))) := h f (by simp)
    have hrest : ∀ g ∈ rest, importModule g = .ok (RouteModule.mk (some (handlers g))) :=
      fun g hg => h g (by simp [hg])
    simp [routeLoop, hf, ih (i + 1) hrest]

theorem routeLoop_importFailed {ε H : Type} (importModule : String → Except ε (RouteModule H))
    (filenames : List String) (i k : Nat) (e : ε) (ms : List (String × H))
    (h : routeLoop importModule filenames i = (ms, some (.importFailed k e))) :
    i ≤ k ∧ ms.map some = (filenames.take (k - i)).map (mountOf importModule) ∧
      ms.length = k - i ∧
      ∃ f, filenames[k - i]? = some f ∧ importModule f = .error e := by
  induction filenames generalizing i ms with
  | nil => simp [routeLoop] at h
  | cons f rest ih =>
    unfold routeLoop at h
    cases hf : importModule f with
    | error e0 =>
      rw [hf] at h
      simp only [Prod.mk.injEq, Option.some.injEq, RouteStop.importFailed.injEq] at h
      obtain ⟨hms, hk, he⟩ := h
      subst hms hk he
      simp [hf]
    | ok item =>
      rw [hf] at h
      cases hd : item.default with
      | none =>
        simp [hd] at h
      | some handler =>
        simp only [hd, Prod.mk.injEq] at h
        obtain ⟨hms, hstop⟩ := h
        have hloop : routeLoop importModule rest (i + 1) =
            ((routeLoop importModule rest (i + 1)).1, some (.importFailed k e)) := by
          rw [← hstop]
        obtain ⟨hle, hmap, hlen, g, hg, hge⟩ := ih (i + 1) _ hloop
        have hki : k - i = (k - (i + 1)) + 1 := by omega
        have hmo : mountOf importModule f = some (mountPath f, handler) := by
          simp [mountOf, hf, hd]
        subst hms
        refine ⟨by omega, ?_, ?_, g, ?_, hge⟩
        · rw [hki]
          simp [hmo, hmap]
        · rw [hki]
          simp [hlen]
        · rw [hki]
          simpa using hg

theorem routeLoop_stops_at_first_failure {ε H : Type}
    (importModule : String → Except ε (RouteModule H)) (handlers : String → H)
    (filenames : List String) (i k : Nat) (f : String) (e : ε)
    (hk : filenames[k]? = some f)
    (hbefore : ∀ g ∈ filenames.take k, importModule g = .ok (RouteModule.mk (some (handlers g))))
    (hfail : importModule f = .error e) :
    (routeLoop importModule filenames i).2 = some (.importFailed (i + k) e) := by
  induction filenames generalizing i k with
  | nil => simp at hk
  | cons g rest ih =>
    cases k with
    | zero =>
      simp at hk
      subst hk
      simp [routeLoop, hfail]
    | succ k =>
      have hg : importModule g = .ok (RouteModule.mk (some (handlers g))) :=
        hbefore g (by simp)
      have hrest : ∀ x ∈ rest.take k,
          importModule x = .ok (RouteModule.mk (some (handlers x))) :=
        fun x hx => hbefore x (by simp [hx])
      have hk2 : rest[k]? = some f := by simpa using hk
      have := ih (i + 1) k hk2 hrest
      simp [routeLoop, hg, this]
      omega

theorem loadRoutes_stopped_of_first_failure {ε H : Type} (w : RouteWorld ε H)
    (handlers : String → H) (filenames : List String) (k : Nat) (f : String) (e : ε)
    (hl : w.readdir = .ok filenames) (hk : filenames[k]? = some f)
    (hbefore : ∀ g ∈ filenames.take k,
      w.importModule g = .ok (RouteModule.mk (some (handlers g))))
    (hfail : w.importModule f = .error e) :
    (loadRoutes w).stopped = some (.importFailed k e) := by
  have h := routeLoop_stops_at_first_failure w.importModule handlers filenames 0 k f e
    hk hbefore hfail
  rw [Nat.zero_add] at h
  cases hloop : routeLoop w.importModule filenames 0 with
  | mk ms stop =>
    rw [hloop] at h
    simp only at h
    subst h
    simp [loadRoutes, hl, hloop]

/-- C8: if the directory listing fails (`k = 0`), or if the loader's import of the `k`-th
file fails (the loader reaches that import only after every file before it was imported and
mounted), the loader's promise is fulfilled (no error reaches the caller) and the `app.use`
calls that went through are exactly those of the first `k` files, in order: the files before
`k` are mounted, the `k`-th and the later ones are not. The failed import is the one the
outside world has for the `k`-th file. -/
theorem loadRoutes_fail_open {ε H : Type} (w : RouteWorld ε H)
    (filenames : List String) (k : Nat)
    (h : (k = 0 ∧ ∃ e, w.readdir = .error e) ∨
      (w.readdir = .ok filenames ∧
        ∃ e, (loadRoutes w).stopped = some (.importFailed k e))) :
    (loadRoutes w).outcome = .ok () ∧
      (loadRoutes w).mounts.map some = (filenames.take k).map (mountOf w.importModule) ∧
      (loadRoutes w).mounts.length = k ∧
      ∀ e, (loadRoutes w).stopped = some (.importFailed k e) →
        ∃ f, filenames[k]? = some f ∧ w.importModule f = .error e := by
  rcases h with ⟨hk, e, he⟩ | ⟨hl, e, hstop⟩
  · subst hk
    simp [loadRoutes, he]
  · cases hloop : routeLoop w.importModule filenames 0 with
    | mk ms stop =>
      have hload : loadRoutes w =
          match stop with
          | none => { mounts := ms, stopped := none, logged := [], outcome := .ok () }
          | some st =>
            { mounts := ms, stopped := some st, logged := [st.thrown], outcome := .ok () } := by
        simp only [loadRoutes, hl, hloop]
        cases stop <;> rfl
      cases stop with
      | none =>
        rw [hload] at hstop
        simp at hstop
      | some st =>
        rw [hload] at hstop
        simp only [Option.some.injEq] at hstop
        subst hstop
        obtain ⟨_, hmap, hlen, f, hf, hfe⟩ :=
          routeLoop_importFailed w.importModule filenames 0 k e ms hloop
        rw [hload]
        refine ⟨rfl, by simpa using hmap, by simpa using hlen, ?_⟩
        intro e2 he2
        simp only [Option.some.injEq, RouteStop.importFailed.injEq, true_and] at he2
        subst he2
        exact ⟨f, by simpa using hf, hfe⟩

theorem loadRoutes_fail_open_witness :
    ((1 = 0 ∧ ∃ e, brokenWorld.readdir = .error e) ∨
      (brokenWorld.readdir = .ok ["users.js", "songs.js", "index.js"] ∧
        ∃ e, (loadRoutes brokenWorld).stopped = some (.importFailed 1 e))) ∧
      ((loadRoutes brokenWorld).outcome = .ok () ∧
        (loadRoutes brokenWorld).mounts.map some =
          (["users.js", "songs.js", "index.js"].take 1).map (mountOf brokenWorld.importModule) ∧
        (loadRoutes brokenWorld).mounts.length = 1 ∧
        ∀ e, (loadRoutes brokenWorld).stopped = some (.importFailed 1 e) →
          ∃ f, ["users.js", "songs.js", "index.js"][1]? = some f ∧
            brokenWorld.importModule f = .error e) :=
  have hyp : (1 = 0 ∧ ∃ e, brokenWorld.readdir = .error e) ∨
      (brokenWorld.readdir = .ok ["users.js", "songs.js", "index.js"] ∧
        ∃ e, (loadRoutes brokenWorld).stopped = some (.importFailed 1 e)) :=
    Or.inr ⟨rfl, "SyntaxError in songs.js", by
      simp [loadRoutes, routeLoop, brokenWorld]⟩
  ⟨hyp, loadRoutes_fail_open brokenWorld ["users.js", "songs.js", "index.js"] 1 hyp⟩

/-- C10, as stated, fails: in a directory of `a.js`, `b.js` and `c.js` where every import
succeeds and `b.js` has no default export, `app.use` throws for `b.js` inside the `try`, so
the only mount is that of `a.js`: one mount for three files, `c.js` skipped. -/
theorem loadRoutes_missing_default_counterexample :
    noDefaultWorld.readdir = .ok ["a.js", "b.js", "c.js"] ∧
      (∀ f ∈ ["a.js", "b.js", "c.js"], ∃ m, noDefaultWorld.importModule f = .ok m) ∧
      (loadRoutes noDefaultWorld).mounts = [("/api/a", "router of a.js")] ∧
      (loadRoutes noDefaultWorld).stopped = some (.useThrew 1) ∧
      (loadRoutes noDefaultWorld).mounts.length ≠ ["a.js", "b.js", "c.js"].length := by
  refine ⟨rfl, ?_, ?_, ?_, ?_⟩
  · intro f _
    by_cases hf : f = "b.js"
    · exact ⟨RouteModule.mk none, by simp [noDefaultWorld, hf]⟩
    · exact ⟨RouteModule.mk (some ("router of " ++ f)), by simp [noDefaultWorld, hf]⟩
  · simp [loadRoutes, routeLoop, noDefaultWorld]
    decide
  · simp [loadRoutes, routeLoop, noDefaultWorld]
  · simp [loadRoutes, routeLoop, noDefaultWorld]

/-- C10, amended: when the listing and every import succeed and every file's default export
is a middleware function, the `app.use` calls of the loader are, in order and one per
enumerated filename, the pair of the file's mount path and the file's default export; nothing
is skipped or merged, so two files with the same slug, such as `foo.js` and `foo.mjs`, are
both mounted at the same path, the later one after the earlier one. -/
theorem loadRoutes_mounts_all {ε H : Type} (w : RouteWorld ε H) (handlers : String → H)
    (filenames : List String) (hl : w.readdir = .ok filenames)
    (hi : ∀ f ∈ filenames, w.importModule f = .ok (RouteModule.mk (some (handlers f)))) :
    (loadRoutes w).mounts = filenames.map (fun f => (mountPath f, handlers f)) ∧
      (loadRoutes w).mounts.length = filenames.length ∧
      (∀ i (hlt : i < filenames.length), (loadRoutes w).mounts[i]? =
        some (mountPath filenames[i], handlers filenames[i])) ∧
      (∀ i j (hij : i < j) (hj : j < filenames.length),
        slug (filenames[i]) = slug filenames[j] →
          (loadRoutes w).mounts[i]? = some (mountPath filenames[j], handlers filenames[i]) ∧
            (loadRoutes w).mounts[j]? = some (mountPath filenames[j], handlers filenames[j])) ∧
      mountPath "foo.js" = mountPath "foo.mjs" := by
  have hloop := routeLoop_all_ok w.importModule handlers filenames 0 hi
  have hm : (loadRoutes w).mounts = filenames.map (fun f => (mountPath f, handlers f)) := by
    simp [loadRoutes, hl, hloop]
  refine ⟨hm, ?_, ?_, ?_, by decide⟩
  · simp [hm]
  · intro i hlt
    simp [hm, hlt]
  · intro i j hij hj hs
    have hi2 : i < filenames.length := by omega
    have hp := mountPath_eq_of_slug_eq _ _ hs
    constructor
    · simp [hm, hi2, hp]
    · simp [hm, hj]

theorem loadRoutes_mounts_all_witness :
    (fooWorld.readdir = .ok ["foo.js", "foo.mjs"] ∧
      ∀ f ∈ ["foo.js", "foo.mjs"],
        fooWorld.importModule f = .ok (RouteModule.mk (some ("router of " ++ f)))) ∧
      ((loadRoutes fooWorld).mounts =
          ["foo.js", "foo.mjs"].map (fun f => (mountPath f, "router of " ++ f)) ∧
        (loadRoutes fooWorld).mounts.length = ["foo.js", "foo.mjs"].length ∧
        (∀ i (hlt : i < ["foo.js", "foo.mjs"].length), (loadRoutes fooWorld).mounts[i]? =
          some (mountPath (["foo.js", "foo.mjs"][i]), "router of " ++ ["foo.js", "foo.mjs"][i])) ∧
        (∀ i j (hij : i < j) (hj : j < ["foo.js", "foo.mjs"].length),
          slug (["foo.js", "foo.mjs"][i]) = slug (["foo.js", "foo.mjs"][j]) →
            (loadRoutes fooWorld).mounts[i]? =
                some (mountPath (["foo.js", "foo.mjs"][j]),
                  "router of " ++ ["foo.js", "foo.mjs"][i]) ∧
              (loadRoutes fooWorld).mounts[j]? =
                some (mountPath (["foo.js", "foo.mjs"][j]),
                  "router of " ++ ["foo.js", "foo.mjs"][j])) ∧
        mountPath "foo.js" = mountPath "foo.mjs") :=
  ⟨⟨rfl, fun _ _ => rfl⟩,
    loadRoutes_mounts_all fooWorld (fun f => "router of " ++ f)
      ["foo.js", "foo.mjs"] rfl (fun _ _ => rfl)⟩

/-! ## Model registration -/

theorem applyLoop_all_ok {ε Conn : Type} (w : ModelWorld ε Conn) (sequelize : Conn)
    (mods : String → ModelModule ε Conn) (filenames : List String) (t : Nat)
    (hi : ∀ f ∈ filenames, w.importModule f = .ok (mods f))
    (hr : ∀ f ∈ filenames, ∃ r, (mods f).default sequelize = .ok r) :
    (applyLoop w sequelize filenames t).outcome = .ok () ∧
      (applyLoop w sequelize filenames t).registrations.map
          (fun r => (r.filename, r.arg, r.returned)) =
        filenames.map (fun f => (f, sequelize, (mods f).default sequelize)) := by
  induction filenames generalizing t with
  | nil => simp [applyLoop]
  | cons f rest ih =>
    have hf : w.importModule f = .ok (mods f) := hi f (by simp)
    obtain ⟨r, hr0⟩ := hr f (by simp)
    have hi2 : ∀ g ∈ rest, w.importModule g = .ok (mods g) := fun g hg => hi g (by simp [hg])
    have hr2 : ∀ g ∈ rest, ∃ r, (mods g).default sequelize = .ok r :=
      fun g hg => hr g (by simp [hg])
    obtain ⟨h1, h2⟩ := ih (t + w.importTicks f) hi2 hr2
    simp [applyLoop, hf, hr0, h1, h2]

/-- C6: when the listing succeeds, every listed file imports and no registration function
throws, `applyModels` fulfils its promise and its registration calls are, in enumeration order
and one per listed file, the call of that file's default export with the very connection
that `applyModels` received. -/
theorem applyModels_calls_each_once {ε Conn : Type} (w : ModelWorld ε Conn) (sequelize : Conn)
    (mods : String → ModelModule ε Conn) (filenames : List String)
    (hl : w.readdir = .ok filenames)
    (hi : ∀ f ∈ filenames, w.importModule f = .ok (mods f))
    (hr : ∀ f ∈ filenames, ∃ r, (mods f).default sequelize = .ok r) :
    (applyModels w sequelize).outcome = .ok () ∧
      (applyModels w sequelize).registrations.map (fun r => (r.filename, r.arg, r.returned)) =
        filenames.map (fun f => (f, sequelize, (mods f).default sequelize)) ∧
      (applyModels w sequelize).registrations.length = filenames.length ∧
      ∀ r ∈ (applyModels w sequelize).registrations, r.arg = sequelize := by
  obtain ⟨h1, h2⟩ := applyLoop_all_ok w sequelize mods filenames w.readdirTicks hi hr
  have e : applyModels w sequelize = applyLoop w sequelize filenames w.readdirTicks := by
    simp [applyModels, hl]
  rw [e]
  refine ⟨h1, h2, ?_, ?_⟩
  · have := congrArg List.length h2
    simpa using this
  · intro r hmem
    have hm : (r.filename, r.arg, r.returned) ∈
        (applyLoop w sequelize filenames w.readdirTicks).registrations.map
          (fun r => (r.filename, r.arg, r.returned)) := List.mem_map_of_mem _ hmem
    rw [h2] at hm
    obtain ⟨f, _, hf⟩ := List.mem_map.mp hm
    have := congrArg (fun p => p.2.1) hf
    exact this.symm

theorem applyModels_calls_each_once_witness :
    (syncWorld.readdir = .ok ["user.js", "song.js"] ∧
      (∀ f ∈ ["user.js", "song.js"],
        syncWorld.importModule f = .ok (ModelModule.mk (fun _ => .ok .value))) ∧
      (∀ f ∈ ["user.js", "song.js"],
        ∃ r, (ModelModule.mk (fun _ => .ok .value) : ModelModule String Nat).default 7 = .ok r)) ∧
      ((applyModels syncWorld 7).outcome = .ok () ∧
        (applyModels syncWorld 7).registrations.map (fun r => (r.filename, r.arg, r.returned)) =
          ["user.js", "song.js"].map (fun f => (f, 7, .ok .value)) ∧
        (applyModels syncWorld 7).registrations.length = ["user.js", "song.js"].length ∧
        ∀ r ∈ (applyModels syncWorld 7).registrations, r.arg = 7) :=
  ⟨⟨rfl, fun _ _ => rfl, fun _ _ => ⟨.value, rfl⟩⟩,
    applyModels_calls_each_once syncWorld 7 (fun _ => ModelModule.mk (fun _ => .ok .value))
      ["user.js", "song.js"] rfl (fun _ _ => rfl) (fun _ _ => ⟨.value, rfl⟩)⟩

theorem applyLoop_importStart {ε Conn : Type} (w : ModelWorld ε Conn) (sequelize : Conn)
    (filenames : List String) (t : Nat) :
    ∀ r ∈ (applyLoop w sequelize filenames t).registrations.head?, r.importStart = t := by
  cases filenames with
  | nil => simp [applyLoop]
  | cons f rest =>
    unfold applyLoop
    split
    · simp
    · split <;> simp

theorem applyLoop_timing {ε Conn : Type} (w : ModelWorld ε Conn) (sequelize : Conn)
    (filenames : List String) (t : Nat) :
    List.Chain' (fun a b => b.importStart = a.calledAt)
        (applyLoop w sequelize filenames t).registrations ∧
      t ≤ (applyLoop w sequelize filenames t).finishedAt ∧
      ∀ r ∈ (applyLoop w sequelize filenames t).registrations,
        r.calledAt ≤ (applyLoop w sequelize filenames t).finishedAt := by
  induction filenames generalizing t with
  | nil => simp [applyLoop]
  | cons f rest ih =>
    obtain ⟨hc, ht, hall⟩ := ih (t + w.importTicks f)
    have hhead := applyLoop_importStart w sequelize rest (t + w.importTicks f)
    unfold applyLoop
    split
    · simp
    · split
      · simp
      · refine ⟨?_, ?_, ?_⟩
        · rw [List.chain'_cons']
          exact ⟨fun b hb => hhead b hb, hc⟩
        · simp only
          omega
        · intro r hr
          simp only [List.mem_cons] at hr
          rcases hr with hr | hr
          · subst hr
            simpa using ht
          · exact hall r hr

/-- C9, as stated, fails: with two model files whose registration functions return promises
that take five ticks, the first registration is complete at time 7 but the import of the
second file starts at time 2, and `applyModels` completes at time 3. -/
theorem applyModels_not_awaited_counterexample :
    (applyModels asyncWorld ()).registrations.map
        (fun r => (r.filename, r.importStart, r.calledAt, r.settleTime)) =
      [("user.js", 1, 2, 7), ("song.js", 2, 3, 8)] ∧
      (applyModels asyncWorld ()).finishedAt = 3 ∧
      ¬ AwaitsRegistrations (applyModels asyncWorld ()) := by
  simp [AwaitsRegistrations, applyModels, applyLoop, asyncWorld, Registration.settleTime]

theorem settleTime_eq_calledAt {ε Conn : Type} (r : Registration ε Conn)
    (h : ∀ d, r.returned = .ok (.promise d) → d = 0) : r.settleTime = r.calledAt := by
  unfold Registration.settleTime
  split
  · next d hd => simp [h d hd]
  · rfl

/-- C9, amended: in `applyModels`, for every pair of consecutive registrations the import of
the next file starts at the very time the previous registration function was called and
returned, whatever it returned (a returned promise is not waited for), and `applyModels` does
not complete before every registration function has been called; when no registration
function returns a promise that is still pending, every registration is complete before the
next import starts and before `applyModels` completes. -/
theorem applyModels_sequencing {ε Conn : Type} (w : ModelWorld ε Conn) (sequelize : Conn) :
    List.Chain' (fun a b => b.importStart = a.calledAt)
        (applyModels w sequelize).registrations ∧
      (∀ r ∈ (applyModels w sequelize).registrations,
        r.calledAt ≤ (applyModels w sequelize).finishedAt) ∧
      ((∀ r ∈ (applyModels w sequelize).registrations,
          ∀ d, r.returned = .ok (.promise d) → d = 0) →
        AwaitsRegistrations (applyModels w sequelize)) := by
  have key : List.Chain' (fun a b => b.importStart = a.calledAt)
        (applyModels w sequelize).registrations ∧
      ∀ r ∈ (applyModels w sequelize).registrations,
        r.calledAt ≤ (applyModels w sequelize).finishedAt := by
    unfold applyModels
    split
    · simp
    · next filenames _ =>
      obtain ⟨hc, _, hall⟩ := applyLoop_timing w sequelize filenames w.readdirTicks
      exact ⟨hc, hall⟩
  refine ⟨key.1, key.2, fun hsync => ⟨?_, ?_⟩⟩
  · refine (List.Chain'.iff_mem.mp key.1).imp ?_
    intro a b hab
    obtain ⟨ha, _, hab⟩ := hab
    rw [settleTime_eq_calledAt a (hsync a ha), hab]
  · intro r hr
    rw [settleTime_eq_calledAt r (hsync r hr)]
    exact key.2 r hr

theorem applyModels_sequencing_witness :
    (∀ r ∈ (applyModels syncWorld 7).registrations,
        ∀ d, r.returned = .ok (.promise d) → d = 0) ∧
      AwaitsRegistrations (applyModels syncWorld 7) :=
  have hsync : ∀ r ∈ (applyModels syncWorld 7).registrations,
      ∀ d, r.returned = .ok (.promise d) → d = 0 := by
    simp [applyModels, applyLoop, syncWorld]
  ⟨hsync, (applyModels_sequencing syncWorld 7).2.2 hsync⟩

/-! ## OAuth endpoints -/

/-- C3: whenever the token exchange returns a response whose body carries
`access_token = A` and `refresh_token = B`, the `/callback` handler makes exactly one call on
the response object, the redirect to the front-end callback URL with `A` and `B` put into the
fragment as they are. -/
theorem callback_success {ε : Type} (stringify : List (String × JsVal) → String)
    (post : String → String → List (String × String) → Except ε AxiosResponse)
    (cfg : Config) (req : Request) (response : AxiosResponse) (A B : String)
    (hpost : tokenExchange stringify post cfg req = .ok response)
    (ha : response.data.get "access_token" = some (.str A))
    (hb : response.data.get "refresh_token" = some (.str B)) :
    callbackHandler stringify post cfg req =
      [.redirect ("https://makin-sound.vercel.app/auth/callback#access_token=" ++ A ++
        "&refresh_token=" ++ B)] := by
  simp [callbackHandler, hpost, destructureTokens, ha, hb, callbackUrl, JsVal.toStr]

theorem callback_success_witness :
    (tokenExchange keysOnly tokenStub demoConfig emptyRequest =
        .ok (AxiosResponse.mk (.obj [("access_token", .str "A"), ("refresh_token", .str "B")])) ∧
      (AxiosResponse.mk (.obj [("access_token", .str "A"), ("refresh_token", .str "B")])).data.get
          "access_token" = some (.str "A") ∧
      (AxiosResponse.mk (.obj [("access_token", .str "A"), ("refresh_token", .str "B")])).data.get
          "refresh_token" = some (.str "B")) ∧
      callbackHandler keysOnly tokenStub demoConfig emptyRequest =
        [.redirect ("https://makin-sound.vercel.app/auth/callback#access_token=" ++ "A" ++
          "&refresh_token=" ++ "B")] :=
  ⟨⟨rfl, rfl, rfl⟩,
    callback_success keysOnly tokenStub demoConfig emptyRequest
      (AxiosResponse.mk (.obj [("access_token", .str "A"), ("refresh_token", .str "B")]))
      "A" "B" rfl rfl rfl⟩

/-- C4: if the token exchange raises an error `e`, the `/callback` handler makes exactly one
call on the response object, `send` with `e` itself, and no redirect; conversely, whenever the
handler redirects, the token exchange returned a response. -/
theorem callback_failure {ε : Type} (stringify : List (String × JsVal) → String)
    (post : String → String → List (String × String) → Except ε AxiosResponse)
    (cfg : Config) (req : Request) :
    (∀ e, tokenExchange stringify post cfg req = .error e →
        callbackHandler stringify post cfg req = [.send (.raised e)] ∧
          redirects (callbackHandler stringify post cfg req) = []) ∧
      (redirects (callbackHandler stringify post cfg req) ≠ [] →
        ∃ response, tokenExchange stringify post cfg req = .ok response) := by
  constructor
  · intro e he
    simp [callbackHandler, he, redirects]
  · intro hne
    cases hx : tokenExchange stringify post cfg req with
    | error e => simp [callbackHandler, hx, redirects] at hne
    | ok response => exact ⟨response, rfl⟩

theorem callback_failure_witness :
    tokenExchange keysOnly failingStub demoConfig emptyRequest =
        .error "Request failed with status code 400" ∧
      (callbackHandler keysOnly failingStub demoConfig emptyRequest =
          [.send (.raised "Request failed with status code 400")] ∧
        redirects (callbackHandler keysOnly failingStub demoConfig emptyRequest) = []) :=
  ⟨rfl, (callback_failure keysOnly failingStub demoConfig emptyRequest).1 _ rfl⟩

/-- C5: the `/login` handler answers any two requests alike, with one redirect; its target
starts with `https://accounts.spotify.com/authorize?` and continues with the encoding, by
`querystring.stringify`, of exactly `response_type = "code"`, the configured client id, the
full scope string and the fixed back-end callback URL. -/
theorem login_independent_of_request {ε : Type} (stringify : List (String × JsVal) → String)
    (cfg : Config) (r1 r2 : Request) :
    (loginHandler stringify cfg r1 : List (ResCall ε)) = loginHandler stringify cfg r2 ∧
      (loginHandler stringify cfg r1 : List (ResCall ε)) = [.redirect (authUrl stringify cfg)] ∧
      authUrl stringify cfg = "https://accounts.spotify.com/authorize?" ++
        stringify [("response_type", .str "code"), ("client_id", cfg.spotify_client_id),
          ("scope", .str "streaming user-read-email user-read-private ugc-image-upload user-read-playback-state user-modify-playback-state user-read-currently-playing app-remote-control playlist-read-private playlist-read-collaborative playlist-modify-private playlist-modify-public user-follow-modify user-follow-read user-read-playback-position user-top-read user-read-recently-played user-library-modify user-library-read"),
          ("redirect_uri", .str "https://makin-backend.vercel.app/callback")] ∧
      "https://accounts.spotify.com/authorize?".data <+: (authUrl stringify cfg).data := by
  refine ⟨rfl, rfl, rfl, ?_⟩
  simp [authUrl]

/-! ## Not-found and error middleware -/

/-- C7: for every error value handed to the error middleware (anything but `undefined` and
`null`, which Express never passes on), whatever its `status`, the response sent has status
500 and the body whose only property `error` is that value; a request that reaches the
not-found middleware is answered that way with the 404 error object. -/
theorem errorHandler_sends_500 (createError : Int → List (String × JsVal)) (err : JsVal)
    (req : Request) (res : Res) (h : err ≠ .undefined ∧ err ≠ .null) :
    (errorHandler err req res).map Res.sent =
        some (some (.num 500 (by decide), .obj [("error", err)])) ∧
      (handleUnmatched createError req res).map Res.sent =
        some (some (.num 500 (by decide), .obj [("error", .obj (createError 404))])) := by
  constructor
  · cases err with
    | undefined => exact absurd rfl h.1
    | null => exact absurd rfl h.2
    | bool b => simp [errorHandler, JsVal.get, Res.status, Res.send]
    | num n safe => simp [errorHandler, JsVal.get, Res.status, Res.send]
    | str s => simp [errorHandler, JsVal.get, Res.status, Res.send]
    | obj props => simp [errorHandler, JsVal.get, Res.status, Res.send]
  · simp [handleUnmatched, notFound, errorHandler, JsVal.get, Res.status, Res.send]

theorem errorHandler_sends_500_witness :
    (notFoundError ≠ .undefined ∧ notFoundError ≠ .null) ∧
      ((errorHandler notFoundError emptyRequest freshRes).map Res.sent =
          some (some (.num 500 (by decide), .obj [("error", notFoundError)])) ∧
        (handleUnmatched (fun _ => notFoundProps) emptyRequest freshRes).map Res.sent =
          some (some (.num 500 (by decide),
            .obj [("error", .obj ((fun _ => notFoundProps) (404 : Int)))]))) :=
  ⟨⟨by simp [notFoundError], by simp [notFoundError]⟩,
    errorHandler_sends_500 (fun _ => notFoundProps) notFoundError
      emptyRequest freshRes ⟨by simp [notFoundError], by simp [notFoundError]⟩⟩

end MaKin
